import Mathlib

/-!
Shallow embedding of the tiko_monitoring event-detection core
(`src/monitor.py`): the persisted dedup ledger (`load_logs`,
`is_new_event`, `log_event`), the two aggregation buffers
(`OrderAggregator`, `FillAggregator`), the order-lifecycle tracker
(`check_order_status`) and the per-address steps of the watch loop
(`process_orders`, `process_fills`, one address's slice of `watch`).
Python dicts are modelled as insertion-ordered association lists with
Python's `dict.get` / item-assignment semantics; JSON values stored in
the ledger are stratified into `JScalar` (entry values) and `NsVal`
(namespace slots), which covers every shape the two-level ledger file
can take; sizes and prices are rationals.
-/

namespace Tiko

/-- A JSON value sitting in an event-id slot of a ledger namespace.
Only equality with an integer timestamp is ever observed, so composite
values (arrays/objects) are collapsed into `jcomposite`: in Python they
compare unequal to any int, exactly as here. -/
inductive JScalar where
  | jnum (n : Int)
  | jstr (s : String)
  | jbool (b : Bool)
  | jnull
  | jcomposite
deriving Repr, DecidableEq

/-- A JSON value sitting in a namespace slot of the ledger: either an
object of id ↦ value, or some non-object garbage. -/
inductive NsVal where
  | jobj (events : List (String × JScalar))
  | garbage (s : JScalar)
deriving Repr, DecidableEq

/-- `d.get(k)` on a Python dict modelled as an association list:
the first binding of `k` wins. -/
def alookup {α : Type} (l : List (String × α)) (k : String) : Option α :=
  match l with
  | [] => none
  | (k', v) :: rest => if k' = k then some v else alookup rest k

/-- `d[k] = v` on a Python dict: update the binding in place if the key
exists, otherwise append it (insertion order preserved). -/
def aset {α : Type} (l : List (String × α)) (k : String) (v : α) :
    List (String × α) :=
  match l with
  | [] => [(k, v)]
  | (k', v') :: rest => if k' = k then (k, v) :: rest else (k', v') :: aset rest k v

/-- `d.pop(k, None)` on a Python dict: drop the binding of `k`. -/
def aremove {α : Type} (l : List (String × α)) (k : String) :
    List (String × α) :=
  l.filter (fun e => !(e.1 = k : Bool))

/-- `d.setdefault(k, v)`: insert `k ↦ v` only when `k` is absent. -/
def asetdefault {α : Type} (l : List (String × α)) (k : String) (v : α) :
    List (String × α) :=
  match alookup l k with
  | some _ => l
  | none => l ++ [(k, v)]

/-- `list(d.keys())`. -/
def akeys {α : Type} (l : List (String × α)) : List String := l.map (·.1)

/-- The in-memory ledger `self.logs`: namespace name ↦ namespace slot. -/
abbrev Logs := List (String × NsVal)

/-- A fresh ledger: `{"orders": {}, "fills": {}, "status_changes": {}}`. -/
def freshLogs : Logs :=
  [("orders", NsVal.jobj []), ("fills", NsVal.jobj []),
   ("status_changes", NsVal.jobj [])]

/-- What reading and parsing the ledger file yields: no file, a parse
failure, a non-object top level, or an object top level. -/
inductive FileState where
  | missing
  | unparsable
  | nonObject (s : JScalar)
  | object (fields : Logs)
deriving Repr, DecidableEq

/-- `HyperliquidWatcher.load_logs`: missing file, parse failure or a
non-object top level reset to a fresh ledger; an object top level gets
each of the three namespace keys defaulted to `{}` when absent. -/
def load_logs : FileState → Logs
  | FileState.missing => freshLogs
  | FileState.unparsable => freshLogs
  | FileState.nonObject _ => freshLogs
  | FileState.object fields =>
      asetdefault (asetdefault (asetdefault fields "orders" (NsVal.jobj []))
        "fills" (NsVal.jobj [])) "status_changes" (NsVal.jobj [])

/-- `HyperliquidWatcher.is_new_event`. The namespace defaults to `{}`
when absent; a stored value equal to the integer timestamp means
"seen"; any other stored shape (a failed comparison, or the Python
`except` path when the namespace slot is not a dict) reports new. -/
def is_new_event (logs : Logs) (event_type event_id : String)
    (timestamp : Int) : Bool :=
  match alookup logs event_type with
  | none => true
  | some (NsVal.jobj events) =>
    match alookup events event_id with
    | none => true
    | some (JScalar.jnum n) => !(n = timestamp : Bool)
    | some _ => true
  | some (NsVal.garbage _) => true

/-- `HyperliquidWatcher.log_event`. Creates the namespace object when
the key is absent; when the namespace slot holds a non-object the
Python item assignment raises and the handler leaves the ledger
unchanged. -/
def log_event (logs : Logs) (event_type event_id : String)
    (timestamp : Int) : Logs :=
  match alookup logs event_type with
  | none =>
      aset logs event_type (NsVal.jobj [(event_id, JScalar.jnum timestamp)])
  | some (NsVal.jobj events) =>
      aset logs event_type
        (NsVal.jobj (aset events event_id (JScalar.jnum timestamp)))
  | some (NsVal.garbage _) => logs

/-- The value recorded for `event_id` in namespace `event_type`
(`none` when the namespace is absent, not an object, or lacks the id). -/
def recorded (logs : Logs) (event_type event_id : String) : Option JScalar :=
  match alookup logs event_type with
  | some (NsVal.jobj events) => alookup events event_id
  | _ => none

/-- The namespace slot is either absent or a JSON object — true of
every ledger state the watcher itself produces. -/
def nsWellFormed (logs : Logs) (event_type : String) : Bool :=
  match alookup logs event_type with
  | none => true
  | some (NsVal.jobj _) => true
  | some (NsVal.garbage _) => false

/-- An open-order record as consumed by the core (the fields
`process_orders` and the order aggregator read). -/
structure Order where
  oid : String
  coin : String
  side : String
  sz : ℚ
  limitPx : ℚ
  orderType : String
  timestamp : Int
deriving Repr, DecidableEq

/-- A fill record as consumed by the core. -/
structure Fill where
  tid : String
  coin : String
  side : String
  sz : ℚ
  px : ℚ
  time : Int
deriving Repr, DecidableEq

/-- Side normalization used by both aggregators:
`"buy" if side == "B" else "sell"`. -/
def normSide (side : String) : String := if side = "B" then "buy" else "sell"

/-- `OrderAggregator` state: `coin -> side -> [orders]` plus the set of
already-buffered order ids (set modelled as a duplicate-free-by-use
list; only membership is observed). -/
structure OrderAggregator where
  orders : List (String × List (String × List Order))
  order_ids : List String
deriving Repr, DecidableEq

def OrderAggregator.empty : OrderAggregator := ⟨[], []⟩

/-- The bucket for `(coin, side)` (empty when never touched —
`defaultdict` semantics). -/
def OrderAggregator.bucket (st : OrderAggregator) (coin side : String) :
    List Order :=
  (alookup ((alookup st.orders coin).getD []) side).getD []

/-- `OrderAggregator.add_order`. -/
def OrderAggregator.add_order (st : OrderAggregator) (o : Order) :
    OrderAggregator :=
  if o.oid ∈ st.order_ids then st
  else
    let sides := (alookup st.orders o.coin).getD []
    let bucket := (alookup sides (normSide o.side)).getD []
    { orders := aset st.orders o.coin (aset sides (normSide o.side) (bucket ++ [o]))
      order_ids := st.order_ids ++ [o.oid] }

/-- One aggregated entry produced by `OrderAggregator.get_aggregated`. -/
structure AggOrder where
  coin : String
  side : String
  total_size : ℚ
  avg_price : ℚ
  total_volume : ℚ
  order_count : Nat
  type : String
deriving Repr, DecidableEq

/-- The aggregate of one non-empty order bucket. -/
def aggBucketOrder (coin side : String) (orders : List Order) : AggOrder :=
  let total_size := (orders.map (·.sz)).sum
  let total_volume := (orders.map (fun o => o.sz * o.limitPx)).sum
  { coin := coin, side := side
    total_size := total_size
    avg_price := if total_size > 0 then total_volume / total_size else 0
    total_volume := total_volume
    order_count := orders.length
    type := ((orders.head?).map (·.orderType)).getD "" }

/-- `OrderAggregator.get_aggregated`: one entry per non-empty bucket,
empty buckets skipped. -/
def OrderAggregator.get_aggregated (st : OrderAggregator) : List AggOrder :=
  st.orders.flatMap fun cs =>
    (cs.2.filter fun b => !b.2.isEmpty).map fun b => aggBucketOrder cs.1 b.1 b.2

/-- `FillAggregator` state: `coin -> side -> [fills]` plus seen ids. -/
structure FillAggregator where
  fills : List (String × List (String × List Fill))
  fill_ids : List String
deriving Repr, DecidableEq

def FillAggregator.empty : FillAggregator := ⟨[], []⟩

def FillAggregator.bucket (st : FillAggregator) (coin side : String) :
    List Fill :=
  (alookup ((alookup st.fills coin).getD []) side).getD []

/-- `FillAggregator.add_fill`. -/
def FillAggregator.add_fill (st : FillAggregator) (f : Fill) :
    FillAggregator :=
  if f.tid ∈ st.fill_ids then st
  else
    let sides := (alookup st.fills f.coin).getD []
    let bucket := (alookup sides (normSide f.side)).getD []
    { fills := aset st.fills f.coin (aset sides (normSide f.side) (bucket ++ [f]))
      fill_ids := st.fill_ids ++ [f.tid] }

/-- One aggregated entry produced by `FillAggregator.get_aggregated`. -/
structure AggFill where
  coin : String
  side : String
  total_size : ℚ
  avg_price : ℚ
  total_volume : ℚ
  fill_count : Nat
deriving Repr, DecidableEq

/-- The aggregate of one non-empty fill bucket. -/
def aggBucketFill (coin side : String) (fills : List Fill) : AggFill :=
  let total_size := (fills.map (·.sz)).sum
  let total_volume := (fills.map (fun f => f.sz * f.px)).sum
  { coin := coin, side := side
    total_size := total_size
    avg_price := if total_size > 0 then total_volume / total_size else 0
    total_volume := total_volume
    fill_count := fills.length }

/-- `FillAggregator.get_aggregated`. -/
def FillAggregator.get_aggregated (st : FillAggregator) : List AggFill :=
  st.fills.flatMap fun cs =>
    (cs.2.filter fun b => !b.2.isEmpty).map fun b => aggBucketFill cs.1 b.1 b.2

/-- One entry of `self.active_orders`:
`{"address": ..., "last_status": ...}`. -/
structure ActiveEntry where
  address : String
  last_status : String
deriving Repr, DecidableEq

/-- The result of `client.get_order_status` as consumed by
`check_order_status`: `status?` models `status_data.get("status", ...)`
possibly finding no usable value, `statusTimestamp` models
`status_data.get("statusTimestamp", 0)`. -/
structure StatusData where
  statusField : Option String
  statusTimestamp : Int
deriving Repr, DecidableEq

/-- The mutable state of `HyperliquidWatcher` touched by the core.
`last_aggregation_flush` is the timer field set in `__init__`. -/
structure WatcherState where
  logs : Logs
  active_orders : List (String × ActiveEntry)
  order_aggregator : OrderAggregator
  fill_aggregator : FillAggregator
  last_aggregation_flush : Int
deriving Repr, DecidableEq

/-- The alerts/user-activity log lines the core emits, abstracted to
the data that determines them. -/
inductive Alert where
  | statusChange (key : String) (timestamp : Int)
  | aggOrders (a : AggOrder)
  | aggFills (a : AggFill)
deriving Repr, DecidableEq

/-- `HyperliquidWatcher.check_order_status`, with the external lookup's
result passed in (`none` models an empty/failed lookup: early return).
Returns the new state and the status-change alerts emitted. -/
def check_order_status (st : WatcherState) (order_id address : String)
    (status_data : Option StatusData) : WatcherState × List Alert :=
  match status_data with
  | none => (st, [])
  | some sd =>
    let current_status := sd.statusField.getD "unknown"
    let last_status :=
      ((alookup st.active_orders order_id).map (·.last_status)).getD "unknown"
    let (logs', alerts) :=
      if current_status ≠ last_status ∧ current_status ≠ "open" ∧
          current_status ≠ "filled" then
        let status_key := order_id ++ "_" ++ current_status
        let timestamp := sd.statusTimestamp
        if is_new_event st.logs "status_changes" status_key timestamp then
          (log_event st.logs "status_changes" status_key timestamp,
           [Alert.statusChange status_key timestamp])
        else (st.logs, [])
      else (st.logs, [])
    let active' :=
      if current_status = "canceled" ∨ current_status = "rejected" ∨
          current_status = "marginCanceled" then
        aremove st.active_orders order_id
      else aset st.active_orders order_id ⟨address, current_status⟩
    ({ st with logs := logs', active_orders := active' }, alerts)

/-- An order record passes `process_orders`' validity guard
(`if not order_id or not timestamp: continue`). -/
def validOrder (o : Order) : Bool := !(o.oid = "" : Bool) && !(o.timestamp = 0 : Bool)

/-- The set of currently-open order ids `process_orders` accumulates. -/
def currentOrderIds (orders : List Order) : List String :=
  (orders.filter validOrder).map (·.oid)

/-- The per-order intake loop of `process_orders`: novelty check, feed
the aggregator, record in the ledger, (re)insert into active orders. -/
def processOrdersLoop (address : String) :
    WatcherState → List Order → WatcherState
  | st, [] => st
  | st, o :: rest =>
    if validOrder o then
      let st' :=
        if is_new_event st.logs "orders" o.oid o.timestamp then
          { st with
              order_aggregator := st.order_aggregator.add_order o
              logs := log_event st.logs "orders" o.oid o.timestamp
              active_orders := aset st.active_orders o.oid ⟨address, "open"⟩ }
        else st
      processOrdersLoop address st' rest
    else processOrdersLoop address st rest

/-- The eviction pass at the end of `process_orders`: over a snapshot
of the active-order keys, any id not in the current listing and owned
by this address gets a status lookup. A key vanished from the live map
raises `KeyError` in Python, caught by the enclosing handler, which
abandons the rest of the pass. Also returns the ids looked up. -/
def evictionLoop (address : String) (currentIds : List String)
    (oracle : String → Option StatusData) :
    WatcherState → List String → WatcherState × List Alert × List String
  | st, [] => (st, [], [])
  | st, oid :: rest =>
    if oid ∈ currentIds then evictionLoop address currentIds oracle st rest
    else
      match alookup st.active_orders oid with
      | none => (st, [], [])
      | some e =>
        if e.address = address then
          let r := check_order_status st oid address (oracle oid)
          let r' := evictionLoop address currentIds oracle r.1 rest
          (r'.1, r.2 ++ r'.2.1, oid :: r'.2.2)
        else evictionLoop address currentIds oracle st rest

/-- `HyperliquidWatcher.process_orders`: intake, unconditional flush of
the order aggregator when its aggregate is non-empty, then the eviction
pass. Returns the new state, the alerts, and the ids status-looked-up. -/
def process_orders (st : WatcherState) (address : String)
    (orders : List Order) (oracle : String → Option StatusData) :
    WatcherState × List Alert × List String :=
  let st1 := processOrdersLoop address st orders
  let agg := st1.order_aggregator.get_aggregated
  let (st2, aggAlerts) :=
    if agg.isEmpty then (st1, ([] : List Alert))
    else ({ st1 with order_aggregator := OrderAggregator.empty },
          agg.map Alert.aggOrders)
  let r := evictionLoop address (currentOrderIds orders) oracle st2
    (akeys st2.active_orders)
  (r.1, aggAlerts ++ r.2.1, r.2.2)

/-- A fill record passes `process_fills`' validity guard. -/
def validFill (f : Fill) : Bool := !(f.tid = "" : Bool) && !(f.time = 0 : Bool)

/-- The per-fill intake loop of `process_fills`. -/
def processFillsLoop : WatcherState → List Fill → WatcherState
  | st, [] => st
  | st, f :: rest =>
    if validFill f then
      let st' :=
        if is_new_event st.logs "fills" f.tid f.time then
          { st with
              fill_aggregator := st.fill_aggregator.add_fill f
              logs := log_event st.logs "fills" f.tid f.time }
        else st
      processFillsLoop st' rest
    else processFillsLoop st rest

/-- `HyperliquidWatcher.process_fills`: intake then unconditional flush
of the fill aggregator when its aggregate is non-empty. -/
def process_fills (st : WatcherState) (fills : List Fill) :
    WatcherState × List Alert :=
  let st1 := processFillsLoop st fills
  let agg := st1.fill_aggregator.get_aggregated
  if agg.isEmpty then (st1, [])
  else ({ st1 with fill_aggregator := FillAggregator.empty },
        agg.map Alert.aggFills)

/-- The final pass of one address's slice of `watch`: status-check every
tracked order whose snapshot entry belongs to this address. Also
returns the ids looked up. -/
def statusCheckLoop (address : String)
    (oracle : String → Option StatusData) :
    WatcherState → List (String × ActiveEntry) →
      WatcherState × List Alert × List String
  | st, [] => (st, [], [])
  | st, (oid, e) :: rest =>
    if e.address = address then
      let r := check_order_status st oid address (oracle oid)
      let r' := statusCheckLoop address oracle r.1 rest
      (r'.1, r.2 ++ r'.2.1, oid :: r'.2.2)
    else statusCheckLoop address oracle st rest

/-- One address's slice of one iteration of `watch`: process open
orders, process fills, then status-check all of this address's tracked
orders. Returns the new state, all alerts, and every order id for which
a status lookup was performed. -/
def watchAddressCycle (st : WatcherState) (address : String)
    (orders : List Order) (fills : List Fill)
    (oracle : String → Option StatusData) :
    WatcherState × List Alert × List String :=
  let r1 := process_orders st address orders oracle
  let r2 := process_fills r1.1 fills
  let r3 := statusCheckLoop address oracle r2.1 r2.1.active_orders
  (r3.1, r1.2.1 ++ r2.2 ++ r3.2.1, r1.2.2 ++ r3.2.2)

/-! ### Concrete records used by tests and witnesses -/

/-- `{BTC, B, sz=1, px=100}` from the spec's aggregation example. -/
def exOrder1 : Order := ⟨"1", "BTC", "B", 1, 100, "Limit", 111⟩

/-- `{BTC, B, sz=3, px=200}` from the spec's aggregation example. -/
def exOrder2 : Order := ⟨"2", "BTC", "B", 3, 200, "Limit", 222⟩

/-- A watcher freshly constructed over an absent ledger file. -/
def initialState : WatcherState :=
  ⟨load_logs FileState.missing, [], OrderAggregator.empty,
   FillAggregator.empty, 0⟩

/-- A status oracle whose every lookup fails soft (returns `None`). -/
def noOracle : String → Option StatusData := fun _ => none

/-! ### Association-list lemmas -/

theorem alookup_aset_self {α : Type} (l : List (String × α)) (k : String)
    (v : α) : alookup (aset l k v) k = some v := by
  induction l with
  | nil => simp [aset, alookup]
  | cons e rest ih =>
    by_cases h : e.1 = k
    · simp [aset, alookup, h]
    · simp [aset, alookup, h, ih]

theorem alookup_aset_ne {α : Type} (l : List (String × α)) (k k' : String)
    (v : α) (h : k' ≠ k) : alookup (aset l k v) k' = alookup l k' := by
  have h' : k ≠ k' := Ne.symm h
  induction l with
  | nil => simp [aset, alookup, h']
  | cons e rest ih =>
    by_cases he : e.1 = k
    · subst he
      simp [aset, alookup, h']
    · simp [aset, alookup, he, ih]

theorem alookup_aremove_self {α : Type} (l : List (String × α)) (k : String) :
    alookup (aremove l k) k = none := by
  induction l with
  | nil => simp [aremove, alookup]
  | cons e rest ih =>
    by_cases h : e.1 = k
    · simpa [aremove, alookup, h] using ih
    · simpa [aremove, alookup, h] using ih

theorem alookup_append {α : Type} (l1 l2 : List (String × α)) (k : String) :
    alookup (l1 ++ l2) k = (alookup l1 k).or (alookup l2 k) := by
  induction l1 with
  | nil => simp [alookup]
  | cons e rest ih =>
    by_cases h : e.1 = k
    · simp [alookup, h]
    · simp [alookup, h, ih]

theorem alookup_asetdefault_some {α : Type} (l : List (String × α))
    (k k' : String) (v w : α) (h : alookup l k' = some w) :
    alookup (asetdefault l k v) k' = some w := by
  unfold asetdefault
  cases hk : alookup l k with
  | some _ => simpa using h
  | none => simp [alookup_append, h]

theorem alookup_asetdefault_none_self {α : Type} (l : List (String × α))
    (k : String) (v : α) (h : alookup l k = none) :
    alookup (asetdefault l k v) k = some v := by
  unfold asetdefault
  simp [h, alookup_append, alookup]

theorem alookup_asetdefault_none_ne {α : Type} (l : List (String × α))
    (k k' : String) (v : α) (h : alookup l k' = none) (hne : k' ≠ k) :
    alookup (asetdefault l k v) k' = none := by
  have h' : k ≠ k' := Ne.symm hne
  unfold asetdefault
  cases hk : alookup l k with
  | some _ => simpa using h
  | none => simp [alookup_append, h, alookup, h']

/-! ### Claim C1: novelty test of the dedup ledger -/

/-- C1: `is_new_event(namespace, id, ts)` returns true iff `id` is absent
from the namespace's mapping or the value recorded for `id` differs from
the timestamp `ts`; consequently the same id with a changed timestamp is
reported as a fresh event, and a malformed namespace slot (the
internal-failure path of the Python `try`/`except`) also yields true
(fail-open). -/
theorem is_new_event_characterization (logs : Logs) (ns id : String)
    (ts : Int) :
    (is_new_event logs ns id ts = true ↔
      (recorded logs ns id = none ∨
        recorded logs ns id ≠ some (JScalar.jnum ts)))
    ∧ (∀ ts0 : Int, recorded logs ns id = some (JScalar.jnum ts0) → ts0 ≠ ts →
        is_new_event logs ns id ts = true)
    ∧ (nsWellFormed logs ns = false → is_new_event logs ns id ts = true) := by
  have main : is_new_event logs ns id ts = true ↔
      (recorded logs ns id = none ∨
        recorded logs ns id ≠ some (JScalar.jnum ts)) := by
    unfold is_new_event recorded
    cases h : alookup logs ns with
    | none => simp
    | some v =>
      cases v with
      | jobj events =>
        cases he : alookup events id with
        | none => simp [he]
        | some w => cases w <;> simp [he]
      | garbage s => simp
  refine ⟨main, ?_, ?_⟩
  · intro ts0 h0 hne
    exact main.2 (Or.inr (by simp [h0, hne]))
  · intro hbad
    unfold nsWellFormed at hbad
    unfold is_new_event
    cases h : alookup logs ns with
    | none => rfl
    | some v =>
      cases v with
      | jobj events => simp [h] at hbad
      | garbage s => rfl

/-- C1 witness: a recorded id with a changed timestamp is fresh again,
and a malformed namespace slot reports fresh. -/
theorem is_new_event_characterization_witness :
    is_new_event [("orders", NsVal.jobj [("7", JScalar.jnum 5)])] "orders" "7" 6
        = true
    ∧ is_new_event [("orders", NsVal.garbage JScalar.jnull)] "orders" "7" 6
        = true :=
  ⟨(is_new_event_characterization
      [("orders", NsVal.jobj [("7", JScalar.jnum 5)])] "orders" "7" 6).2.1
      5 (by decide) (by decide),
   (is_new_event_characterization
      [("orders", NsVal.garbage JScalar.jnull)] "orders" "7" 6).2.2
      (by decide)⟩

/-! ### Claim C6: ledger load resilience -/

/-- C6: `load_logs` is total over every on-disk state: a missing file, a
parse failure, or a non-mapping top level each yield the fresh ledger
whose three namespaces are empty objects; an object top level keeps
every present key and defaults each missing one of the three namespace
keys to an empty object. -/
theorem load_logs_resilient :
    (load_logs FileState.missing = freshLogs)
    ∧ (load_logs FileState.unparsable = freshLogs)
    ∧ (∀ s, load_logs (FileState.nonObject s) = freshLogs)
    ∧ (∀ ns : String, ns = "orders" ∨ ns = "fills" ∨ ns = "status_changes" →
        alookup freshLogs ns = some (NsVal.jobj []))
    ∧ (∀ (fields : Logs) (ns : String),
        ns = "orders" ∨ ns = "fills" ∨ ns = "status_changes" →
        alookup fields ns = none →
        alookup (load_logs (FileState.object fields)) ns = some (NsVal.jobj []))
    ∧ (∀ (fields : Logs) (ns : String) (v : NsVal),
        alookup fields ns = some v →
        alookup (load_logs (FileState.object fields)) ns = some v) := by
  refine ⟨rfl, rfl, fun s => rfl, ?_, ?_, ?_⟩
  · rintro ns (rfl | rfl | rfl) <;> rfl
  · rintro fields ns (rfl | rfl | rfl) habs
    · exact alookup_asetdefault_some _ _ _ _ _
        (alookup_asetdefault_some _ _ _ _ _
          (alookup_asetdefault_none_self _ _ _ habs))
    · exact alookup_asetdefault_some _ _ _ _ _
        (alookup_asetdefault_none_self _ _ _
          (alookup_asetdefault_none_ne _ _ _ _ habs (by decide)))
    · exact alookup_asetdefault_none_self _ _ _
        (alookup_asetdefault_none_ne _ _ _ _
          (alookup_asetdefault_none_ne _ _ _ _ habs (by decide)) (by decide))
  · intro fields ns v h
    exact alookup_asetdefault_some _ _ _ _ _
      (alookup_asetdefault_some _ _ _ _ _
        (alookup_asetdefault_some _ _ _ _ _ h))

/-- C6 witness: a file holding the string `"not an object"` loads as the
fresh ledger, and an object lacking `"orders"` gets it defaulted. -/
theorem load_logs_resilient_witness :
    load_logs (FileState.nonObject (JScalar.jstr "not an object")) = freshLogs
    ∧ alookup (load_logs (FileState.object
        [("fills", NsVal.jobj [("9", JScalar.jnum 1)])])) "orders"
        = some (NsVal.jobj [])
    ∧ alookup (load_logs (FileState.object
        [("fills", NsVal.jobj [("9", JScalar.jnum 1)])])) "fills"
        = some (NsVal.jobj [("9", JScalar.jnum 1)]) :=
  ⟨load_logs_resilient.2.2.1 (JScalar.jstr "not an object"),
   load_logs_resilient.2.2.2.2.1
     [("fills", NsVal.jobj [("9", JScalar.jnum 1)])] "orders"
     (Or.inl rfl) (by decide),
   load_logs_resilient.2.2.2.2.2
     [("fills", NsVal.jobj [("9", JScalar.jnum 1)])] "fills"
     (NsVal.jobj [("9", JScalar.jnum 1)]) (by decide)⟩

/-! ### Claims C2 and C10: the order-lifecycle status check -/

/-- Closed form of `check_order_status` on a successful lookup. -/
theorem check_order_status_eq (st : WatcherState) (oid address : String)
    (sd : StatusData) :
    check_order_status st oid address (some sd) =
      ({ logs :=
           if sd.statusField.getD "unknown"
                ≠ ((alookup st.active_orders oid).map (·.last_status)).getD
                    "unknown"
              ∧ sd.statusField.getD "unknown" ≠ "open"
              ∧ sd.statusField.getD "unknown" ≠ "filled"
              ∧ is_new_event st.logs "status_changes"
                  (oid ++ "_" ++ sd.statusField.getD "unknown")
                  sd.statusTimestamp = true
           then log_event st.logs "status_changes"
                  (oid ++ "_" ++ sd.statusField.getD "unknown")
                  sd.statusTimestamp
           else st.logs
         active_orders :=
           if sd.statusField.getD "unknown" = "canceled"
              ∨ sd.statusField.getD "unknown" = "rejected"
              ∨ sd.statusField.getD "unknown" = "marginCanceled"
           then aremove st.active_orders oid
           else aset st.active_orders oid ⟨address, sd.statusField.getD "unknown"⟩
         order_aggregator := st.order_aggregator
         fill_aggregator := st.fill_aggregator
         last_aggregation_flush := st.last_aggregation_flush },
       if sd.statusField.getD "unknown"
            ≠ ((alookup st.active_orders oid).map (·.last_status)).getD "unknown"
          ∧ sd.statusField.getD "unknown" ≠ "open"
          ∧ sd.statusField.getD "unknown" ≠ "filled"
          ∧ is_new_event st.logs "status_changes"
              (oid ++ "_" ++ sd.statusField.getD "unknown")
              sd.statusTimestamp = true
       then [Alert.statusChange (oid ++ "_" ++ sd.statusField.getD "unknown")
              sd.statusTimestamp]
       else []) := by
  by_cases hA : sd.statusField.getD "unknown"
        ≠ ((alookup st.active_orders oid).map (·.last_status)).getD "unknown"
      ∧ sd.statusField.getD "unknown" ≠ "open"
      ∧ sd.statusField.getD "unknown" ≠ "filled"
  · by_cases hD : is_new_event st.logs "status_changes"
        (oid ++ "_" ++ sd.statusField.getD "unknown") sd.statusTimestamp = true
    · have hM : sd.statusField.getD "unknown"
            ≠ ((alookup st.active_orders oid).map (·.last_status)).getD
                "unknown"
          ∧ sd.statusField.getD "unknown" ≠ "open"
          ∧ sd.statusField.getD "unknown" ≠ "filled"
          ∧ is_new_event st.logs "status_changes"
              (oid ++ "_" ++ sd.statusField.getD "unknown")
              sd.statusTimestamp = true :=
        ⟨hA.1, hA.2.1, hA.2.2, hD⟩
      simp [check_order_status, hA, hD, hM]
    · have hM : ¬(sd.statusField.getD "unknown"
            ≠ ((alookup st.active_orders oid).map (·.last_status)).getD
                "unknown"
          ∧ sd.statusField.getD "unknown" ≠ "open"
          ∧ sd.statusField.getD "unknown" ≠ "filled"
          ∧ is_new_event st.logs "status_changes"
              (oid ++ "_" ++ sd.statusField.getD "unknown")
              sd.statusTimestamp = true) := fun hm => hD hm.2.2.2
      simp [check_order_status, hA, hD, hM]
  · have hM : ¬(sd.statusField.getD "unknown"
          ≠ ((alookup st.active_orders oid).map (·.last_status)).getD
              "unknown"
        ∧ sd.statusField.getD "unknown" ≠ "open"
        ∧ sd.statusField.getD "unknown" ≠ "filled"
        ∧ is_new_event st.logs "status_changes"
            (oid ++ "_" ++ sd.statusField.getD "unknown")
            sd.statusTimestamp = true) :=
      fun hm => hA ⟨hm.1, hm.2.1, hm.2.2.1⟩
    simp [check_order_status, hA, hM]

/-- C2: on a successful status lookup, an alert is emitted and the key
`"{orderId}_{status}"` recorded iff the status differs from the
last-known one, is neither `open` nor `filled`, and the key with the
status's own timestamp is new per the ledger; the order is evicted iff
the status is `canceled`, `rejected` or `marginCanceled`, and otherwise
stays tracked with its last-known status updated; in particular a
`filled` status neither evicts nor alerts, and an `open` status never
alerts. -/
theorem check_order_status_correct (st : WatcherState)
    (oid address : String) (sd : StatusData) :
    ((check_order_status st oid address (some sd)).2 =
        if sd.statusField.getD "unknown"
              ≠ ((alookup st.active_orders oid).map (·.last_status)).getD
                  "unknown"
            ∧ sd.statusField.getD "unknown" ≠ "open"
            ∧ sd.statusField.getD "unknown" ≠ "filled"
            ∧ is_new_event st.logs "status_changes"
                (oid ++ "_" ++ sd.statusField.getD "unknown")
                sd.statusTimestamp = true
        then [Alert.statusChange (oid ++ "_" ++ sd.statusField.getD "unknown")
               sd.statusTimestamp]
        else [])
    ∧ ((check_order_status st oid address (some sd)).1.logs =
        if sd.statusField.getD "unknown"
              ≠ ((alookup st.active_orders oid).map (·.last_status)).getD
                  "unknown"
            ∧ sd.statusField.getD "unknown" ≠ "open"
            ∧ sd.statusField.getD "unknown" ≠ "filled"
            ∧ is_new_event st.logs "status_changes"
                (oid ++ "_" ++ sd.statusField.getD "unknown")
                sd.statusTimestamp = true
        then log_event st.logs "status_changes"
               (oid ++ "_" ++ sd.statusField.getD "unknown") sd.statusTimestamp
        else st.logs)
    ∧ (alookup (check_order_status st oid address (some sd)).1.active_orders
          oid =
        if sd.statusField.getD "unknown" = "canceled"
            ∨ sd.statusField.getD "unknown" = "rejected"
            ∨ sd.statusField.getD "unknown" = "marginCanceled"
        then none
        else some ⟨address, sd.statusField.getD "unknown"⟩)
    ∧ (sd.statusField = some "filled" →
        (check_order_status st oid address (some sd)).2 = []
        ∧ alookup (check_order_status st oid address (some sd)).1.active_orders
            oid = some ⟨address, "filled"⟩)
    ∧ (sd.statusField = some "open" →
        (check_order_status st oid address (some sd)).2 = []) := by
  rw [check_order_status_eq]
  refine ⟨rfl, rfl, ?_, ?_, ?_⟩
  · by_cases hT : sd.statusField.getD "unknown" = "canceled"
        ∨ sd.statusField.getD "unknown" = "rejected"
        ∨ sd.statusField.getD "unknown" = "marginCanceled"
    · simp only [if_pos hT]
      exact alookup_aremove_self _ _
    · simp only [if_neg hT]
      exact alookup_aset_self _ _ _
  · intro hf
    constructor
    · simp [hf]
    · simp [hf, alookup_aset_self]
  · intro ho
    simp [ho]

/-- C2 witness: a tracked `open` order reported `canceled` with a fresh
key alerts and is evicted. -/
theorem check_order_status_correct_witness :
    (check_order_status
        { initialState with active_orders := [("5", ⟨"a", "open"⟩)] }
        "5" "a" (some ⟨some "canceled", 9⟩)).2
      = [Alert.statusChange "5_canceled" 9]
    ∧ alookup (check_order_status
        { initialState with active_orders := [("5", ⟨"a", "open"⟩)] }
        "5" "a" (some ⟨some "canceled", 9⟩)).1.active_orders "5" = none := by
  have h := check_order_status_correct
    { initialState with active_orders := [("5", ⟨"a", "open"⟩)] }
    "5" "a" ⟨some "canceled", 9⟩
  refine ⟨?_, ?_⟩
  · rw [h.1]
    decide
  · rw [h.2.2.1]
    decide

/-- C10: a status check on an order absent from the active-orders map
whose lookup returns a non-terminal status inserts the order into the
map with that status as its last-known status, and the change
comparison treats the previous status as `"unknown"`. -/
theorem status_check_starts_tracking (st : WatcherState)
    (oid address : String) (sd : StatusData)
    (h1 : alookup st.active_orders oid = none)
    (h2 : ¬(sd.statusField.getD "unknown" = "canceled"
        ∨ sd.statusField.getD "unknown" = "rejected"
        ∨ sd.statusField.getD "unknown" = "marginCanceled")) :
    alookup (check_order_status st oid address (some sd)).1.active_orders oid
        = some ⟨address, sd.statusField.getD "unknown"⟩
    ∧ (check_order_status st oid address (some sd)).2 =
        (if sd.statusField.getD "unknown" ≠ "unknown"
            ∧ sd.statusField.getD "unknown" ≠ "open"
            ∧ sd.statusField.getD "unknown" ≠ "filled"
            ∧ is_new_event st.logs "status_changes"
                (oid ++ "_" ++ sd.statusField.getD "unknown")
                sd.statusTimestamp = true
         then [Alert.statusChange (oid ++ "_" ++ sd.statusField.getD "unknown")
                sd.statusTimestamp]
         else []) := by
  rw [check_order_status_eq]
  constructor
  · simp only [if_neg h2]
    exact alookup_aset_self _ _ _
  · simp [h1]

/-- C10 witness: checking an untracked order that the exchange reports
as `triggered` begins tracking it with that status. -/
theorem status_check_starts_tracking_witness :
    alookup (check_order_status initialState "77" "a"
        (some ⟨some "triggered", 9⟩)).1.active_orders "77"
      = some ⟨"a", "triggered"⟩
    ∧ (check_order_status initialState "77" "a"
        (some ⟨some "triggered", 9⟩)).2
      = [Alert.statusChange "77_triggered" 9] := by
  have h := status_check_starts_tracking initialState "77" "a"
    ⟨some "triggered", 9⟩ (by decide) (by decide)
  refine ⟨h.1, ?_⟩
  rw [h.2]
  decide

/-! ### Claim C4: which orders get status lookups -/

theorem evictionLoop_lookups_not_current (address : String)
    (currentIds : List String) (oracle : String → Option StatusData) :
    ∀ (ids : List String) (st : WatcherState) (oid : String),
      oid ∈ (evictionLoop address currentIds oracle st ids).2.2 →
      oid ∉ currentIds := by
  intro ids
  induction ids with
  | nil =>
    intro st oid h
    simp [evictionLoop] at h
  | cons i rest ih =>
    intro st oid h
    by_cases hc : i ∈ currentIds
    · rw [evictionLoop] at h
      rw [if_pos hc] at h
      exact ih st oid h
    · rw [evictionLoop] at h
      rw [if_neg hc] at h
      cases hl : alookup st.active_orders i with
      | none => simp [hl] at h
      | some e =>
        by_cases he : e.address = address
        · simp only [hl, if_pos he, List.mem_cons] at h
          cases h with
          | inl h => subst h; exact hc
          | inr h => exact ih _ oid h
        · simp only [hl, if_neg he] at h
          exact ih st oid h

theorem statusCheckLoop_lookups (address : String)
    (oracle : String → Option StatusData) :
    ∀ (snap : List (String × ActiveEntry)) (st : WatcherState),
      (statusCheckLoop address oracle st snap).2.2
        = (snap.filter fun e => (e.2.address = address : Bool)).map (·.1) := by
  intro snap
  induction snap with
  | nil => intro st; simp [statusCheckLoop]
  | cons e rest ih =>
    intro st
    obtain ⟨oid, en⟩ := e
    by_cases he : en.address = address
    · simp [statusCheckLoop, he, ih]
    · simp [statusCheckLoop, he, ih]

/-- C4 counterexample: the cycle that observes order `"1"` as currently
open nevertheless performs a status lookup for `"1"` (the watch loop's
final pass checks every tracked order), refuting "never performs a
status lookup for an order still present in the latest listing". -/
theorem lookup_for_listed_order :
    "1" ∈ (watchAddressCycle initialState "a" [exOrder1] [] noOracle).2.2
    ∧ "1" ∈ currentOrderIds [exOrder1] := by
  constructor
  · simp [watchAddressCycle, process_orders, processOrdersLoop,
      process_fills, processFillsLoop, evictionLoop, statusCheckLoop,
      check_order_status, initialState, load_logs, freshLogs, is_new_event,
      log_event, alookup, aset, akeys, currentOrderIds, validOrder,
      OrderAggregator.empty, OrderAggregator.add_order,
      OrderAggregator.get_aggregated, FillAggregator.empty,
      FillAggregator.get_aggregated, exOrder1, noOracle]
  · simp [currentOrderIds, validOrder, exOrder1]

/-- C4 amended: within `process_orders` a status lookup is triggered
only for tracked orders whose identifier is absent from the
currently-returned open-order identifiers; the watch loop's final pass,
however, performs a status lookup for every tracked order whose
snapshot entry belongs to the address — including orders still present
in the latest open-orders listing. -/
theorem status_lookup_scope (st : WatcherState) (address : String)
    (orders : List Order) (oracle : String → Option StatusData)
    (snap : List (String × ActiveEntry)) :
    (∀ oid, oid ∈ (process_orders st address orders oracle).2.2 →
        oid ∉ currentOrderIds orders)
    ∧ (statusCheckLoop address oracle st snap).2.2
        = (snap.filter fun e => (e.2.address = address : Bool)).map (·.1) := by
  constructor
  · intro oid h
    exact evictionLoop_lookups_not_current address (currentOrderIds orders)
      oracle _ _ oid h
  · exact statusCheckLoop_lookups address oracle snap st

/-- C4 amended-claim witness: a stale tracked order (`"9"`, absent from
the listing) is looked up by `process_orders` and is indeed not among
the current open-order ids, while the watch pass looks up every entry
of the address. -/
theorem status_lookup_scope_witness :
    "9" ∉ currentOrderIds [exOrder1]
    ∧ (statusCheckLoop "a" noOracle initialState
        [("9", ⟨"a", "open"⟩), ("8", ⟨"b", "open"⟩)]).2.2 = ["9"] := by
  constructor
  · refine (status_lookup_scope
      { initialState with active_orders := [("9", ⟨"a", "open"⟩)] }
      "a" [exOrder1] noOracle []).1 "9" ?_
    simp [process_orders, processOrdersLoop, evictionLoop,
      check_order_status, initialState, load_logs, freshLogs, is_new_event,
      log_event, alookup, aset, akeys, currentOrderIds, validOrder,
      OrderAggregator.empty, OrderAggregator.add_order,
      OrderAggregator.get_aggregated, exOrder1, noOracle]
  · rw [(status_lookup_scope initialState "a" [] noOracle
      [("9", ⟨"a", "open"⟩), ("8", ⟨"b", "open"⟩)]).2]
    decide

/-! ### Claim C5: when the aggregators are flushed -/

/-- Overwrite only the `last_aggregation_flush` timer field. -/
def setTimer (t : Int) (st : WatcherState) : WatcherState :=
  { st with last_aggregation_flush := t }

@[simp] theorem setTimer_logs (t : Int) (st : WatcherState) :
    (setTimer t st).logs = st.logs := rfl

@[simp] theorem setTimer_active_orders (t : Int) (st : WatcherState) :
    (setTimer t st).active_orders = st.active_orders := rfl

@[simp] theorem setTimer_order_aggregator (t : Int) (st : WatcherState) :
    (setTimer t st).order_aggregator = st.order_aggregator := rfl

@[simp] theorem setTimer_fill_aggregator (t : Int) (st : WatcherState) :
    (setTimer t st).fill_aggregator = st.fill_aggregator := rfl

@[simp] theorem setTimer_timer (t : Int) (st : WatcherState) :
    (setTimer t st).last_aggregation_flush = t := rfl

theorem setTimer_update_order_agg (t : Int) (st : WatcherState)
    (agg : OrderAggregator) :
    ({ setTimer t st with order_aggregator := agg } : WatcherState)
      = setTimer t { st with order_aggregator := agg } := rfl

theorem setTimer_update_fill_agg (t : Int) (st : WatcherState)
    (agg : FillAggregator) :
    ({ setTimer t st with fill_aggregator := agg } : WatcherState)
      = setTimer t { st with fill_aggregator := agg } := rfl

theorem check_order_status_setTimer (t : Int) (st : WatcherState)
    (oid address : String) (sdo : Option StatusData) :
    check_order_status (setTimer t st) oid address sdo
      = (setTimer t (check_order_status st oid address sdo).1,
         (check_order_status st oid address sdo).2) := by
  cases sdo with
  | none => rfl
  | some sd => simp [check_order_status_eq, setTimer]

theorem check_order_status_preserves (st : WatcherState)
    (oid address : String) (sdo : Option StatusData) :
    (check_order_status st oid address sdo).1.order_aggregator
        = st.order_aggregator
    ∧ (check_order_status st oid address sdo).1.fill_aggregator
        = st.fill_aggregator
    ∧ (check_order_status st oid address sdo).1.last_aggregation_flush
        = st.last_aggregation_flush := by
  cases sdo with
  | none => exact ⟨rfl, rfl, rfl⟩
  | some sd => rw [check_order_status_eq]; exact ⟨rfl, rfl, rfl⟩

theorem processOrdersLoop_setTimer (address : String) (t : Int) :
    ∀ (orders : List Order) (st : WatcherState),
      processOrdersLoop address (setTimer t st) orders
        = setTimer t (processOrdersLoop address st orders) := by
  intro orders
  induction orders with
  | nil => intro st; rfl
  | cons o rest ih =>
    intro st
    by_cases hv : validOrder o = true
    · by_cases hn : is_new_event st.logs "orders" o.oid o.timestamp = true
      · simp only [processOrdersLoop, setTimer_logs, hv, hn, if_pos,
          setTimer_order_aggregator, setTimer_active_orders, if_true]
        rw [show ({ setTimer t st with
              order_aggregator := st.order_aggregator.add_order o,
              logs := log_event st.logs "orders" o.oid o.timestamp,
              active_orders :=
                aset st.active_orders o.oid ⟨address, "open"⟩ } : WatcherState)
          = setTimer t { st with
              order_aggregator := st.order_aggregator.add_order o,
              logs := log_event st.logs "orders" o.oid o.timestamp,
              active_orders :=
                aset st.active_orders o.oid ⟨address, "open"⟩ } from rfl]
        rw [ih]
      · simp only [processOrdersLoop, setTimer_logs, hv, hn, if_true,
          if_false, Bool.false_eq_true]
        rw [ih]
    · simp only [processOrdersLoop, hv, Bool.false_eq_true, if_false]
      rw [ih]

theorem evictionLoop_setTimer (address : String) (cur : List String)
    (oracle : String → Option StatusData) (t : Int) :
    ∀ (ids : List String) (st : WatcherState),
      evictionLoop address cur oracle (setTimer t st) ids
        = (setTimer t (evictionLoop address cur oracle st ids).1,
           (evictionLoop address cur oracle st ids).2) := by
  intro ids
  induction ids with
  | nil => intro st; rfl
  | cons i rest ih =>
    intro st
    by_cases hc : i ∈ cur
    · simp only [evictionLoop, hc, if_true]
      exact ih st
    · cases hl : alookup st.active_orders i with
      | none =>
        simp only [evictionLoop, hc, setTimer_active_orders, hl, if_false]
      | some e =>
        by_cases he : e.address = address
        · simp only [evictionLoop, hc, setTimer_active_orders, hl, he,
            if_true, if_false, check_order_status_setTimer, ih]
        · simp only [evictionLoop, hc, setTimer_active_orders, hl, he,
            if_true, if_false]
          exact ih st

theorem evictionLoop_preserves (address : String) (cur : List String)
    (oracle : String → Option StatusData) :
    ∀ (ids : List String) (st : WatcherState),
      (evictionLoop address cur oracle st ids).1.order_aggregator
          = st.order_aggregator
      ∧ (evictionLoop address cur oracle st ids).1.fill_aggregator
          = st.fill_aggregator
      ∧ (evictionLoop address cur oracle st ids).1.last_aggregation_flush
          = st.last_aggregation_flush := by
  intro ids
  induction ids with
  | nil => intro st; exact ⟨rfl, rfl, rfl⟩
  | cons i rest ih =>
    intro st
    by_cases hc : i ∈ cur
    · simpa [evictionLoop, hc] using ih st
    · cases hl : alookup st.active_orders i with
      | none => simp [evictionLoop, hc, hl]
      | some e =>
        by_cases he : e.address = address
        · have h1 := check_order_status_preserves st i address (oracle i)
          have h2 := ih (check_order_status st i address (oracle i)).1
          simp only [evictionLoop, hc, hl, he, if_true, if_false]
          exact ⟨h2.1.trans h1.1, h2.2.1.trans h1.2.1, h2.2.2.trans h1.2.2⟩
        · simpa [evictionLoop, hc, hl, he] using ih st

theorem processOrdersLoop_timer (address : String) :
    ∀ (orders : List Order) (st : WatcherState),
      (processOrdersLoop address st orders).last_aggregation_flush
        = st.last_aggregation_flush := by
  intro orders
  induction orders with
  | nil => intro st; rfl
  | cons o rest ih =>
    intro st
    by_cases hv : validOrder o = true
    · by_cases hn : is_new_event st.logs "orders" o.oid o.timestamp = true
      · simp only [processOrdersLoop, hv, hn, if_true]
        exact ih _
      · simp only [processOrdersLoop, hv, hn, if_true, if_false,
          Bool.false_eq_true]
        exact ih _
    · simp only [processOrdersLoop, hv, Bool.false_eq_true, if_false]
      exact ih _

theorem processFillsLoop_setTimer (t : Int) :
    ∀ (fills : List Fill) (st : WatcherState),
      processFillsLoop (setTimer t st) fills
        = setTimer t (processFillsLoop st fills) := by
  intro fills
  induction fills with
  | nil => intro st; rfl
  | cons f rest ih =>
    intro st
    by_cases hv : validFill f = true
    · by_cases hn : is_new_event st.logs "fills" f.tid f.time = true
      · simp only [processFillsLoop, setTimer_logs, hv, hn, if_pos,
          setTimer_fill_aggregator, if_true]
        rw [show ({ setTimer t st with
              fill_aggregator := st.fill_aggregator.add_fill f,
              logs := log_event st.logs "fills" f.tid f.time } : WatcherState)
          = setTimer t { st with
              fill_aggregator := st.fill_aggregator.add_fill f,
              logs := log_event st.logs "fills" f.tid f.time } from rfl]
        rw [ih]
      · simp only [processFillsLoop, setTimer_logs, hv, hn, if_true,
          if_false, Bool.false_eq_true]
        rw [ih]
    · simp only [processFillsLoop, hv, Bool.false_eq_true, if_false]
      rw [ih]

theorem processFillsLoop_timer :
    ∀ (fills : List Fill) (st : WatcherState),
      (processFillsLoop st fills).last_aggregation_flush
        = st.last_aggregation_flush := by
  intro fills
  induction fills with
  | nil => intro st; rfl
  | cons f rest ih =>
    intro st
    by_cases hv : validFill f = true
    · by_cases hn : is_new_event st.logs "fills" f.tid f.time = true
      · simp only [processFillsLoop, hv, hn, if_true]
        exact ih _
      · simp only [processFillsLoop, hv, hn, if_true, if_false,
          Bool.false_eq_true]
        exact ih _
    · simp only [processFillsLoop, hv, Bool.false_eq_true, if_false]
      exact ih _

/-- C5 counterexample: the order aggregate is flushed (alert emitted,
buffer cleared) inside the very processing step that buffered the
order, and identically so for two different values of the flush-timer
field — no aggregation-flush timer gates the flush. -/
theorem flush_within_processing_step :
    (process_orders initialState "a" [exOrder1] noOracle).2.1
      = [Alert.aggOrders (aggBucketOrder "BTC" "buy" [exOrder1])]
    ∧ (process_orders { initialState with last_aggregation_flush := 999999999 }
        "a" [exOrder1] noOracle).2.1
      = [Alert.aggOrders (aggBucketOrder "BTC" "buy" [exOrder1])]
    ∧ (process_orders initialState "a" [exOrder1] noOracle).1.order_aggregator
      = OrderAggregator.empty := by
  refine ⟨?_, ?_, ?_⟩ <;>
    simp [process_orders, processOrdersLoop, evictionLoop,
      initialState, load_logs, freshLogs, is_new_event, log_event, alookup,
      aset, akeys, currentOrderIds, validOrder, OrderAggregator.empty,
      OrderAggregator.add_order, OrderAggregator.get_aggregated,
      aggBucketOrder, FillAggregator.empty, exOrder1, normSide, noOracle]

/-- C5 amended: both aggregators are flushed unconditionally within
every processing step whenever the aggregated output is non-empty —
the alerts are emitted immediately and the buffer cleared — and the
`last_aggregation_flush` timer field is never consulted (a step's
outputs are identical for every timer value) nor ever advanced. -/
theorem aggregation_flush_unconditional (st : WatcherState)
    (address : String) (orders : List Order) (fills : List Fill)
    (oracle : String → Option StatusData) (t : Int) :
    (process_orders (setTimer t st) address orders oracle
      = (setTimer t (process_orders st address orders oracle).1,
         (process_orders st address orders oracle).2))
    ∧ (process_fills (setTimer t st) fills
      = (setTimer t (process_fills st fills).1, (process_fills st fills).2))
    ∧ ((process_orders st address orders oracle).1.last_aggregation_flush
        = st.last_aggregation_flush)
    ∧ ((process_fills st fills).1.last_aggregation_flush
        = st.last_aggregation_flush)
    ∧ ((processOrdersLoop address st orders).order_aggregator.get_aggregated
          ≠ [] →
        (process_orders st address orders oracle).1.order_aggregator
            = OrderAggregator.empty
        ∧ ∃ rest, (process_orders st address orders oracle).2.1
            = ((processOrdersLoop address st
                orders).order_aggregator.get_aggregated).map Alert.aggOrders
              ++ rest)
    ∧ ((processFillsLoop st fills).fill_aggregator.get_aggregated ≠ [] →
        (process_fills st fills).1.fill_aggregator = FillAggregator.empty
        ∧ (process_fills st fills).2
            = ((processFillsLoop st
                fills).fill_aggregator.get_aggregated).map Alert.aggFills) := by
  refine ⟨?_, ?_, ?_, ?_, ?_, ?_⟩
  · unfold process_orders
    rw [processOrdersLoop_setTimer]
    by_cases hne : (processOrdersLoop address st
        orders).order_aggregator.get_aggregated.isEmpty = true
    · simp [hne, evictionLoop_setTimer, setTimer_update_order_agg]
    · simp [hne, evictionLoop_setTimer, setTimer_update_order_agg]
      have key := evictionLoop_setTimer address (currentOrderIds orders)
        oracle t (akeys (processOrdersLoop address st orders).active_orders)
        ⟨(processOrdersLoop address st orders).logs,
         (processOrdersLoop address st orders).active_orders,
         OrderAggregator.empty,
         (processOrdersLoop address st orders).fill_aggregator,
         (processOrdersLoop address st orders).last_aggregation_flush⟩
      simp only [setTimer] at key
      rw [key]
      exact ⟨rfl, rfl, rfl⟩
  · unfold process_fills
    rw [processFillsLoop_setTimer]
    by_cases hne : (processFillsLoop st
        fills).fill_aggregator.get_aggregated.isEmpty = true
    · simp [hne, setTimer_update_fill_agg]
    · simp [hne, setTimer_update_fill_agg]
      rfl
  · unfold process_orders
    by_cases hne : (processOrdersLoop address st
        orders).order_aggregator.get_aggregated.isEmpty = true
    · simp [hne, evictionLoop_preserves, processOrdersLoop_timer]
    · simp [hne, evictionLoop_preserves, processOrdersLoop_timer]
  · unfold process_fills
    by_cases hne : (processFillsLoop st
        fills).fill_aggregator.get_aggregated.isEmpty = true
    · simp [hne, processFillsLoop_timer]
    · simp [hne, processFillsLoop_timer]
  · intro hne
    have hne' : (processOrdersLoop address st
        orders).order_aggregator.get_aggregated.isEmpty = false := by
      cases hb : (processOrdersLoop address st
          orders).order_aggregator.get_aggregated.isEmpty with
      | false => rfl
      | true => exact absurd (List.isEmpty_iff.mp hb) hne
    constructor
    · unfold process_orders
      simp [hne', evictionLoop_preserves]
    · refine ⟨(evictionLoop address (currentOrderIds orders) oracle
        { processOrdersLoop address st orders with
            order_aggregator := OrderAggregator.empty }
        (akeys ({ processOrdersLoop address st orders with
            order_aggregator := OrderAggregator.empty }
              : WatcherState).active_orders)).2.1, ?_⟩
      unfold process_orders
      simp [hne']
  · intro hne
    have hne' : (processFillsLoop st
        fills).fill_aggregator.get_aggregated.isEmpty = false := by
      cases hb : (processFillsLoop st
          fills).fill_aggregator.get_aggregated.isEmpty with
      | false => rfl
      | true => exact absurd (List.isEmpty_iff.mp hb) hne
    unfold process_fills
    simp [hne']

/-- C5 amended-claim witness: at a concrete input, a step's outputs are
identical for two timer values and the non-empty order aggregate is
flushed within the step. -/
theorem aggregation_flush_unconditional_witness :
    (process_orders (setTimer 424242 initialState) "a" [exOrder1] noOracle).2
      = (process_orders initialState "a" [exOrder1] noOracle).2
    ∧ (process_orders initialState "a" [exOrder1]
        noOracle).1.last_aggregation_flush
      = initialState.last_aggregation_flush
    ∧ (process_orders initialState "a" [exOrder1] noOracle).1.order_aggregator
      = OrderAggregator.empty := by
  have h := aggregation_flush_unconditional initialState "a" [exOrder1] []
    noOracle 424242
  refine ⟨?_, h.2.2.1, ?_⟩
  · rw [h.1]
  · have hagg : (processOrdersLoop "a" initialState
        [exOrder1]).order_aggregator.get_aggregated
        = [aggBucketOrder "BTC" "buy" [exOrder1]] := by
      simp [processOrdersLoop, initialState, load_logs, freshLogs,
        is_new_event, alookup, exOrder1, validOrder, OrderAggregator.empty,
        OrderAggregator.add_order, OrderAggregator.get_aggregated, aset,
        normSide]
    refine (h.2.2.2.2.1 ?_).1
    rw [hagg]
    simp

/-! ### Claim C9: frame property of `log_event` -/

/-- C9: `log_event(namespace, id, ts)` touches only the entry for `id`
inside that namespace, creating the namespace mapping when absent: every
other namespace slot and every other identifier's recorded value are
unchanged, and (whenever the namespace slot is absent or a mapping —
every state the watcher itself writes) the entry for `id` afterwards
holds `ts`. -/
theorem log_event_frame (logs : Logs) (ns id ns' id' : String) (ts : Int) :
    (ns' ≠ ns → alookup (log_event logs ns id ts) ns' = alookup logs ns')
    ∧ (id' ≠ id → recorded (log_event logs ns id ts) ns id'
        = recorded logs ns id')
    ∧ (nsWellFormed logs ns = true →
        recorded (log_event logs ns id ts) ns id = some (JScalar.jnum ts)) := by
  have hid : ∀ w : JScalar, id' ≠ id →
      alookup [(id, w)] id' = none := by
    intro w hne
    simp [alookup, Ne.symm hne]
  unfold log_event
  cases h : alookup logs ns with
  | none =>
    refine ⟨fun hne => alookup_aset_ne _ _ _ _ hne, fun hne => ?_, fun _ => ?_⟩
    · unfold recorded
      rw [alookup_aset_self, h]
      simp [alookup, Ne.symm hne]
    · unfold recorded
      rw [alookup_aset_self]
      simp [alookup]
  | some v =>
    cases v with
    | jobj events =>
      refine ⟨fun hne => alookup_aset_ne _ _ _ _ hne, fun hne => ?_,
        fun _ => ?_⟩
      · unfold recorded
        rw [alookup_aset_self, h]
        show alookup (aset events id (JScalar.jnum ts)) id' = alookup events id'
        exact alookup_aset_ne _ _ _ _ hne
      · unfold recorded
        rw [alookup_aset_self]
        show alookup (aset events id (JScalar.jnum ts)) id
            = some (JScalar.jnum ts)
        exact alookup_aset_self _ _ _
    | garbage s =>
      refine ⟨fun _ => rfl, fun _ => rfl, fun hwf => ?_⟩
      unfold nsWellFormed at hwf
      simp [h] at hwf

/-! ### Claims C8 and C3: the aggregation buffers -/

theorem add_order_bucket (st : OrderAggregator) (o : Order)
    (coin side : String) :
    (st.add_order o).bucket coin side =
      if coin = o.coin ∧ side = normSide o.side ∧ o.oid ∉ st.order_ids
      then st.bucket coin side ++ [o] else st.bucket coin side := by
  by_cases hmem : o.oid ∈ st.order_ids
  · simp [OrderAggregator.add_order, hmem]
  · by_cases hc : coin = o.coin
    · subst hc
      by_cases hs : side = normSide o.side
      · subst hs
        simp [OrderAggregator.add_order, hmem, OrderAggregator.bucket,
          alookup_aset_self]
      · simp [OrderAggregator.add_order, hmem, OrderAggregator.bucket,
          alookup_aset_self, alookup_aset_ne _ _ _ _ hs, hs]
    · simp [OrderAggregator.add_order, hmem, OrderAggregator.bucket,
        alookup_aset_ne _ _ _ _ hc, hc]

theorem add_fill_bucket (st : FillAggregator) (f : Fill)
    (coin side : String) :
    (st.add_fill f).bucket coin side =
      if coin = f.coin ∧ side = normSide f.side ∧ f.tid ∉ st.fill_ids
      then st.bucket coin side ++ [f] else st.bucket coin side := by
  by_cases hmem : f.tid ∈ st.fill_ids
  · simp [FillAggregator.add_fill, hmem]
  · by_cases hc : coin = f.coin
    · subst hc
      by_cases hs : side = normSide f.side
      · subst hs
        simp [FillAggregator.add_fill, hmem, FillAggregator.bucket,
          alookup_aset_self]
      · simp [FillAggregator.add_fill, hmem, FillAggregator.bucket,
          alookup_aset_self, alookup_aset_ne _ _ _ _ hs, hs]
    · simp [FillAggregator.add_fill, hmem, FillAggregator.bucket,
        alookup_aset_ne _ _ _ _ hc, hc]

/-- C8: `add` leaves the buffers unchanged when the record's identifier
was already seen; otherwise it appends the record to the
`(instrument, normalized side)` bucket — leaving every other bucket
unchanged — and marks the identifier seen; `"B"` normalizes to `"buy"`
and any other side code to `"sell"`. -/
theorem aggregator_add_correct :
    (∀ (st : OrderAggregator) (o : Order), o.oid ∈ st.order_ids →
        st.add_order o = st)
    ∧ (∀ (st : OrderAggregator) (o : Order) (coin side : String),
        (st.add_order o).bucket coin side =
          if coin = o.coin ∧ side = normSide o.side ∧ o.oid ∉ st.order_ids
          then st.bucket coin side ++ [o] else st.bucket coin side)
    ∧ (∀ (st : OrderAggregator) (o : Order) (x : String),
        x ∈ (st.add_order o).order_ids ↔ x = o.oid ∨ x ∈ st.order_ids)
    ∧ (∀ (st : FillAggregator) (f : Fill), f.tid ∈ st.fill_ids →
        st.add_fill f = st)
    ∧ (∀ (st : FillAggregator) (f : Fill) (coin side : String),
        (st.add_fill f).bucket coin side =
          if coin = f.coin ∧ side = normSide f.side ∧ f.tid ∉ st.fill_ids
          then st.bucket coin side ++ [f] else st.bucket coin side)
    ∧ (∀ (st : FillAggregator) (f : Fill) (x : String),
        x ∈ (st.add_fill f).fill_ids ↔ x = f.tid ∨ x ∈ st.fill_ids)
    ∧ normSide "B" = "buy"
    ∧ (∀ s : String, s ≠ "B" → normSide s = "sell") := by
  refine ⟨?_, add_order_bucket, ?_, ?_, add_fill_bucket, ?_, rfl, ?_⟩
  · intro st o h
    simp [OrderAggregator.add_order, h]
  · intro st o x
    by_cases h : o.oid ∈ st.order_ids
    · simp only [OrderAggregator.add_order, if_pos h]
      constructor
      · exact fun hx => Or.inr hx
      · rintro (rfl | hx) <;> assumption
    · simp [OrderAggregator.add_order, h, or_comm]
  · intro st f h
    simp [FillAggregator.add_fill, h]
  · intro st f x
    by_cases h : f.tid ∈ st.fill_ids
    · simp only [FillAggregator.add_fill, if_pos h]
      constructor
      · exact fun hx => Or.inr hx
      · rintro (rfl | hx) <;> assumption
    · simp [FillAggregator.add_fill, h, or_comm]
  · intro s hs
    simp [normSide, hs]

/-- C8 witness: adding a fresh order lands in the `(BTC, buy)` bucket,
re-adding the same id is a no-op, and a non-`"B"` side maps to sell. -/
theorem aggregator_add_correct_witness :
    (OrderAggregator.empty.add_order exOrder1).bucket "BTC" "buy" = [exOrder1]
    ∧ (OrderAggregator.empty.add_order exOrder1).add_order
        ⟨"1", "ETH", "A", 2, 7, "Limit", 9⟩
        = OrderAggregator.empty.add_order exOrder1
    ∧ normSide "A" = "sell" := by
  refine ⟨?_, ?_, ?_⟩
  · have h := aggregator_add_correct.2.1 OrderAggregator.empty exOrder1
      "BTC" "buy"
    rw [h]
    decide
  · exact aggregator_add_correct.1 (OrderAggregator.empty.add_order exOrder1)
      ⟨"1", "ETH", "A", 2, 7, "Limit", 9⟩ (by decide)
  · exact aggregator_add_correct.2.2.2.2.2.2.2 "A" (by decide)

theorem mem_get_aggregated_order (st : OrderAggregator) (a : AggOrder) :
    a ∈ st.get_aggregated ↔
      ∃ coin sides side orders, (coin, sides) ∈ st.orders ∧
        (side, orders) ∈ sides ∧ orders ≠ [] ∧
        a = aggBucketOrder coin side orders := by
  unfold OrderAggregator.get_aggregated
  simp only [List.mem_flatMap, List.mem_map, List.mem_filter]
  constructor
  · rintro ⟨⟨coin, sides⟩, hcs, ⟨side, orders⟩, ⟨hso, hne⟩, rfl⟩
    exact ⟨coin, sides, side, orders, hcs, hso, by simpa using hne, rfl⟩
  · rintro ⟨coin, sides, side, orders, hcs, hso, hne, rfl⟩
    exact ⟨⟨coin, sides⟩, hcs, ⟨side, orders⟩, ⟨hso, by simpa using hne⟩, rfl⟩

theorem mem_get_aggregated_fill (st : FillAggregator) (a : AggFill) :
    a ∈ st.get_aggregated ↔
      ∃ coin sides side fills, (coin, sides) ∈ st.fills ∧
        (side, fills) ∈ sides ∧ fills ≠ [] ∧
        a = aggBucketFill coin side fills := by
  unfold FillAggregator.get_aggregated
  simp only [List.mem_flatMap, List.mem_map, List.mem_filter]
  constructor
  · rintro ⟨⟨coin, sides⟩, hcs, ⟨side, fills⟩, ⟨hso, hne⟩, rfl⟩
    exact ⟨coin, sides, side, fills, hcs, hso, by simpa using hne, rfl⟩
  · rintro ⟨coin, sides, side, fills, hcs, hso, hne, rfl⟩
    exact ⟨⟨coin, sides⟩, hcs, ⟨side, fills⟩, ⟨hso, by simpa using hne⟩, rfl⟩

/-- C3: `get_aggregated` emits exactly one entry per non-empty
`(instrument, side)` bucket (none for empty buckets), whose fields are
the size sum, the size×price sum, the record count, the guard-protected
average price, and — for orders — the first buffered record's type; on
the spec's concrete input the `(BTC, buy)` entry is
`totalSize=4, totalVolume=700, avgPrice=175, count=2`. -/
theorem get_aggregated_correct :
    (∀ (st : OrderAggregator) (a : AggOrder),
        a ∈ st.get_aggregated ↔
          ∃ coin sides side orders, (coin, sides) ∈ st.orders ∧
            (side, orders) ∈ sides ∧ orders ≠ [] ∧
            a = aggBucketOrder coin side orders)
    ∧ (∀ (coin side : String) (orders : List Order),
        (aggBucketOrder coin side orders).total_size = (orders.map (·.sz)).sum
        ∧ (aggBucketOrder coin side orders).total_volume
            = (orders.map fun o => o.sz * o.limitPx).sum
        ∧ (aggBucketOrder coin side orders).order_count = orders.length
        ∧ (aggBucketOrder coin side orders).avg_price
            = (if 0 < (orders.map (·.sz)).sum
               then (orders.map fun o => o.sz * o.limitPx).sum
                  / (orders.map (·.sz)).sum
               else 0))
    ∧ (∀ (coin side : String) (o : Order) (os : List Order),
        (aggBucketOrder coin side (o :: os)).type = o.orderType)
    ∧ (∀ (st : FillAggregator) (a : AggFill),
        a ∈ st.get_aggregated ↔
          ∃ coin sides side fills, (coin, sides) ∈ st.fills ∧
            (side, fills) ∈ sides ∧ fills ≠ [] ∧
            a = aggBucketFill coin side fills)
    ∧ (∀ (coin side : String) (fills : List Fill),
        (aggBucketFill coin side fills).total_size = (fills.map (·.sz)).sum
        ∧ (aggBucketFill coin side fills).total_volume
            = (fills.map fun f => f.sz * f.px).sum
        ∧ (aggBucketFill coin side fills).fill_count = fills.length
        ∧ (aggBucketFill coin side fills).avg_price
            = (if 0 < (fills.map (·.sz)).sum
               then (fills.map fun f => f.sz * f.px).sum
                  / (fills.map (·.sz)).sum
               else 0))
    ∧ ((OrderAggregator.empty.add_order exOrder1).add_order
          exOrder2).get_aggregated
        = [⟨"BTC", "buy", 4, 175, 700, 2, "Limit"⟩] := by
  refine ⟨mem_get_aggregated_order, ?_, ?_, mem_get_aggregated_fill, ?_, ?_⟩
  · intro coin side orders
    exact ⟨rfl, rfl, rfl, rfl⟩
  · intro coin side o os
    rfl
  · intro coin side fills
    exact ⟨rfl, rfl, rfl, rfl⟩
  · simp [OrderAggregator.empty, OrderAggregator.add_order,
      OrderAggregator.get_aggregated, aggBucketOrder, exOrder1, exOrder2,
      alookup, aset, normSide]
    norm_num

/-- C3 witness: the `(BTC, buy)` aggregate of the spec's two concrete
orders is a member of the aggregated output. -/
theorem get_aggregated_correct_witness :
    aggBucketOrder "BTC" "buy" [exOrder1, exOrder2] ∈
      ((OrderAggregator.empty.add_order exOrder1).add_order
        exOrder2).get_aggregated :=
  (get_aggregated_correct.1 _ _).mpr
    ⟨"BTC", [("buy", [exOrder1, exOrder2])], "buy", [exOrder1, exOrder2],
      by decide, by decide, by decide, rfl⟩

/-! ### Claim C7: dedup idempotence -/

/-- C7: once `log_event(ns, id, ts)` has run, `is_new_event(ns, id, ts)`
is false (in every state whose namespace slot is absent or an object —
all states the watcher writes), and feeding the identical order or fill
record through the pipeline twice produces exactly one aggregate alert
and exactly one ledger entry: the second pass changes nothing and emits
nothing. -/
theorem dedup_idempotence :
    (∀ (logs : Logs) (ns id : String) (ts : Int),
        nsWellFormed logs ns = true →
        is_new_event (log_event logs ns id ts) ns id ts = false)
    ∧ (∀ o : Order, validOrder o = true →
        (process_orders (process_orders initialState "a" [o] noOracle).1
            "a" [o] noOracle).1
          = (process_orders initialState "a" [o] noOracle).1
        ∧ (process_orders (process_orders initialState "a" [o] noOracle).1
            "a" [o] noOracle).2.1 = []
        ∧ (process_orders initialState "a" [o] noOracle).1.logs
          = [("orders", NsVal.jobj [(o.oid, JScalar.jnum o.timestamp)]),
             ("fills", NsVal.jobj []), ("status_changes", NsVal.jobj [])]
        ∧ (process_orders initialState "a" [o] noOracle).2.1
          = [Alert.aggOrders (aggBucketOrder o.coin (normSide o.side) [o])])
    ∧ (∀ f : Fill, validFill f = true →
        (process_fills (process_fills initialState [f]).1 [f]).1
          = (process_fills initialState [f]).1
        ∧ (process_fills (process_fills initialState [f]).1 [f]).2 = []
        ∧ (process_fills initialState [f]).1.logs
          = [("orders", NsVal.jobj []),
             ("fills", NsVal.jobj [(f.tid, JScalar.jnum f.time)]),
             ("status_changes", NsVal.jobj [])]
        ∧ (process_fills initialState [f]).2
          = [Alert.aggFills (aggBucketFill f.coin (normSide f.side) [f])]) := by
  refine ⟨?_, ?_, ?_⟩
  · intro logs ns id ts hwf
    unfold log_event is_new_event
    cases h : alookup logs ns with
    | none => simp [alookup_aset_self, alookup]
    | some v =>
      cases v with
      | jobj events => simp [alookup_aset_self]
      | garbage s =>
        unfold nsWellFormed at hwf
        simp [h] at hwf
  · intro o hv
    have h1 : process_orders initialState "a" [o] noOracle =
        ({ logs := [("orders", NsVal.jobj [(o.oid, JScalar.jnum o.timestamp)]),
              ("fills", NsVal.jobj []), ("status_changes", NsVal.jobj [])]
           active_orders := [(o.oid, ⟨"a", "open"⟩)]
           order_aggregator := OrderAggregator.empty
           fill_aggregator := FillAggregator.empty
           last_aggregation_flush := 0 },
         [Alert.aggOrders (aggBucketOrder o.coin (normSide o.side) [o])],
         []) := by
      simp [process_orders, processOrdersLoop, evictionLoop, hv,
        initialState, load_logs, freshLogs, is_new_event, log_event, alookup,
        aset, akeys, currentOrderIds, OrderAggregator.empty,
        OrderAggregator.add_order, OrderAggregator.get_aggregated,
        aggBucketOrder, FillAggregator.empty]
    have h2 : process_orders (process_orders initialState "a" [o]
        noOracle).1 "a" [o] noOracle =
        ((process_orders initialState "a" [o] noOracle).1, [], []) := by
      rw [h1]
      simp [process_orders, processOrdersLoop, evictionLoop, hv,
        is_new_event, alookup, akeys, currentOrderIds,
        OrderAggregator.empty, OrderAggregator.get_aggregated, h1]
    refine ⟨?_, ?_, ?_, ?_⟩
    · rw [h2]
    · rw [h2]
    · rw [h1]
    · rw [h1]
  · intro f hv
    have h1 : process_fills initialState [f] =
        ({ logs := [("orders", NsVal.jobj []),
              ("fills", NsVal.jobj [(f.tid, JScalar.jnum f.time)]),
              ("status_changes", NsVal.jobj [])]
           active_orders := []
           order_aggregator := OrderAggregator.empty
           fill_aggregator := FillAggregator.empty
           last_aggregation_flush := 0 },
         [Alert.aggFills (aggBucketFill f.coin (normSide f.side) [f])]) := by
      simp [process_fills, processFillsLoop, hv,
        initialState, load_logs, freshLogs, is_new_event, log_event, alookup,
        aset, FillAggregator.empty, FillAggregator.add_fill,
        FillAggregator.get_aggregated, aggBucketFill, OrderAggregator.empty]
    have h2 : process_fills (process_fills initialState [f]).1 [f] =
        ((process_fills initialState [f]).1, []) := by
      rw [h1]
      simp [process_fills, processFillsLoop, hv, is_new_event, alookup,
        FillAggregator.empty, FillAggregator.get_aggregated]
    refine ⟨?_, ?_, ?_, ?_⟩
    · rw [h2]
    · rw [h2]
    · rw [h1]
    · rw [h1]

/-- C7 witness: the spec's concrete BTC order fed twice from a fresh
state yields one alert, one ledger entry, and an unchanged second
pass. -/
theorem dedup_idempotence_witness :
    is_new_event (log_event freshLogs "orders" "7" 5) "orders" "7" 5 = false
    ∧ (process_orders (process_orders initialState "a" [exOrder1]
          noOracle).1 "a" [exOrder1] noOracle).2.1 = []
    ∧ (process_orders initialState "a" [exOrder1] noOracle).1.logs
      = [("orders", NsVal.jobj [("1", JScalar.jnum 111)]),
         ("fills", NsVal.jobj []), ("status_changes", NsVal.jobj [])] :=
  ⟨dedup_idempotence.1 freshLogs "orders" "7" 5 (by decide),
   (dedup_idempotence.2.1 exOrder1 (by decide)).2.1,
   (dedup_idempotence.2.1 exOrder1 (by decide)).2.2.1⟩

/-- C9 witness: logging into `"orders"` leaves another id and the
`"fills"` namespace untouched and records the new entry. -/
theorem log_event_frame_witness :
    alookup (log_event freshLogs "orders" "7" 5) "fills"
        = alookup freshLogs "fills"
    ∧ recorded (log_event freshLogs "orders" "7" 5) "orders" "8"
        = recorded freshLogs "orders" "8"
    ∧ recorded (log_event freshLogs "orders" "7" 5) "orders" "7"
        = some (JScalar.jnum 5) :=
  ⟨(log_event_frame freshLogs "orders" "7" "fills" "8" 5).1 (by decide),
   (log_event_frame freshLogs "orders" "7" "fills" "8" 5).2.1 (by decide),
   (log_event_frame freshLogs "orders" "7" "fills" "8" 5).2.2 (by decide)⟩

end Tiko
